import Mathlib

/-!
# tessera: `static/js/main.js`

A shallow embedding of the script

```
window.onload = function () {
    document.body.addEventListener('htmx:beforeSwap', function (evt) {
        if (evt.detail.xhr.status === 400) {
            evt.detail.shouldSwap = true;
        }
    });
};
```

JavaScript objects are mutable and referenced by address, so the embedding
keeps an explicit heap.  Objects are plain records of data properties
(accessors, proxies, frozen objects and the members of the built-in
prototypes are outside the model); numbers are the integer-valued ones.
-/

namespace Tessera

/-- A JavaScript value.  Objects live in the heap and are denoted by their address. -/
inductive JSVal where
  | undefined
  | null
  | bool (b : Bool)
  | num (n : Int)
  | str (s : String)
  | ref (addr : Nat)
  deriving DecidableEq, Repr

/-- The one exception the script can raise. -/
inductive JSError where
  | typeError
  deriving DecidableEq, Repr

/-- An object: its properties in insertion order. -/
abbrev Obj := List (String × JSVal)

/-- The heap: the object stored at each address. -/
abbrev Heap := Nat → Obj

/-- Reading property `k` of an object: `undefined` when it is absent. -/
def Obj.get (o : Obj) (k : String) : JSVal :=
  match o.lookup k with
  | some v => v
  | none => JSVal.undefined

/-- Writing property `k` of an object: overwrite in place, or append. -/
def Obj.set : Obj → String → JSVal → Obj
  | [], k, x => [(k, x)]
  | (k', v) :: rest, k, x =>
    if k' = k then (k, x) :: rest else (k', v) :: Obj.set rest k x

/-- The expression `v.k`.  Reading a property of `undefined` or `null` throws a
`TypeError`; a boolean, number or string has none of the properties the script
names. -/
def getProp (h : Heap) (v : JSVal) (k : String) : Except JSError JSVal :=
  match v with
  | JSVal.undefined => Except.error JSError.typeError
  | JSVal.null => Except.error JSError.typeError
  | JSVal.ref a => Except.ok ((h a).get k)
  | _ => Except.ok JSVal.undefined

/-- The heap in which the object at `a` has had property `k` written. -/
def Heap.write (h : Heap) (a : Nat) (k : String) (x : JSVal) : Heap :=
  fun b => if b = a then (h a).set k x else h b

/-- The statement `v.k = x`.  Writing a property of `undefined` or `null` throws a
`TypeError`; on another primitive the write is dropped (the script is not in
strict mode). -/
def setProp (h : Heap) (v : JSVal) (k : String) (x : JSVal) : Except JSError Heap :=
  match v with
  | JSVal.undefined => Except.error JSError.typeError
  | JSVal.null => Except.error JSError.typeError
  | JSVal.ref a => Except.ok (h.write a k x)
  | _ => Except.ok h

/-- The operator `===`: same type and same value, objects by identity. -/
def strictEq (a b : JSVal) : Bool := decide (a = b)

/-- The listener of `main.js`, lines 3 to 7.  Every read precedes the single
write, so an exception leaves the heap it started from. -/
def handler (h : Heap) (evt : JSVal) : Except JSError Heap := do
  let detail ← getProp h evt "detail"
  let xhr ← getProp h detail "xhr"
  let status ← getProp h xhr "status"
  if strictEq status (JSVal.num 400) then
    let target ← getProp h evt "detail"
    setProp h target "shouldSwap" (JSVal.bool true)
  else
    pure h

/-- The expression `evt.detail.xhr.status`. -/
def readStatus (h : Heap) (evt : JSVal) : Except JSError JSVal := do
  let detail ← getProp h evt "detail"
  let xhr ← getProp h detail "xhr"
  getProp h xhr "status"

/-- The expression `evt.detail.shouldSwap`. -/
def readFlag (h : Heap) (evt : JSVal) : Except JSError JSVal := do
  let detail ← getProp h evt "detail"
  getProp h detail "shouldSwap"

/-- The heap once the listener has been invoked on `evt`: an exception of a
listener is reported by the dispatcher and not propagated. -/
def runHandler (h : Heap) (evt : JSVal) : Heap :=
  match handler h evt with
  | Except.ok h' => h'
  | Except.error _ => h

/-- The heap once the listener has been invoked on each event of a list in turn. -/
def handleAll (h : Heap) (evts : List JSVal) : Heap :=
  evts.foldl runHandler h

/-- The function objects the script creates: the one assigned to `window.onload`,
and one listener per evaluation of the inner function expression. -/
inductive Fn where
  | onloadFn
  | beforeSwapHandler (closure : Nat)
  deriving DecidableEq, Repr

/-- The page as far as the script can tell. -/
structure Page where
  /-- the object heap -/
  heap : Heap
  /-- the value of `window.onload` -/
  onload : Option Fn
  /-- whether the load event has fired -/
  loaded : Bool
  /-- the listeners of `document.body`, in registration order -/
  listeners : List (String × Fn)
  /-- how many times the inner function expression has been evaluated -/
  closures : Nat
  /-- how many times a listener created by the script has been invoked -/
  calls : Nat

/-- A page on which no script has run yet. -/
def freshPage (h : Heap) : Page :=
  { heap := h, onload := none, loaded := false, listeners := [], closures := 0, calls := 0 }

/-- The method `addEventListener`: a listener already registered for the type is
not registered again. -/
def addEventListener (ls : List (String × Fn)) (type : String) (f : Fn) : List (String × Fn) :=
  if (type, f) ∈ ls then ls else ls ++ [(type, f)]

/-- The body of the function assigned to `window.onload`, line 3: evaluate the
function expression and register the result on `document.body`. -/
def onloadBody (p : Page) : Page :=
  { p with
    listeners := addEventListener p.listeners "htmx:beforeSwap" (Fn.beforeSwapHandler p.closures)
    closures := p.closures + 1 }

/-- The script itself, line 2: the assignment to `window.onload`. -/
def script (p : Page) : Page :=
  { p with onload := some Fn.onloadFn }

/-- Calling one of the script's functions with the event `evt`. -/
def callFn (p : Page) (f : Fn) (evt : JSVal) : Page :=
  match f with
  | Fn.onloadFn => onloadBody p
  | Fn.beforeSwapHandler _ => { p with heap := runHandler p.heap evt, calls := p.calls + 1 }

/-- The load event: the function held by `window.onload`, if any, is called. -/
def fireLoad (p : Page) : Page :=
  match p.onload with
  | some f => callFn { p with loaded := true } f JSVal.undefined
  | none => { p with loaded := true }

/-- Dispatching an event of the given type on `document.body`: the listeners
registered for that type when the dispatch starts are called in order. -/
def dispatchEvent (p : Page) (type : String) (evt : JSVal) : Page :=
  (p.listeners.filter (fun l => l.1 = type)).foldl (fun q l => callFn q l.2 evt) p

/-- One step of the page: the load event fires, which the browser does once per
page, or the library builds an event in the heap and dispatches it on the body. -/
inductive Step : Page → Page → Prop where
  | load (p : Page) : p.loaded = false → Step p (fireLoad p)
  | dispatch (p : Page) (h : Heap) (evt : JSVal) :
      Step p (dispatchEvent { p with heap := h } "htmx:beforeSwap" evt)

/-- The states of a page that ran the script while it was loading. -/
inductive Reachable : Page → Prop where
  | init (h : Heap) : Reachable (script (freshPage h))
  | step {p q : Page} : Reachable p → Step p q → Reachable q

/-- How many times a listener created by the script is registered. -/
def registrations (p : Page) : Nat :=
  (p.listeners.filter (fun l => l.2 ≠ Fn.onloadFn)).length

/-- A heap holding the event of the spec's scenarios at address 0: its detail at
address 1, the request at address 2. -/
def scenarioHeap (status flag : JSVal) : Heap := fun a =>
  if a = 0 then [("type", JSVal.str "htmx:beforeSwap"), ("detail", JSVal.ref 1)]
  else if a = 1 then [("xhr", JSVal.ref 2), ("shouldSwap", flag)]
  else if a = 2 then [("status", status)]
  else []

/-- A heap holding at address 0 an event that carries no detail, as
`new Event('htmx:beforeSwap')` builds it. -/
def bareEventHeap : Heap := fun a =>
  if a = 0 then [("type", JSVal.str "htmx:beforeSwap")] else []

/-- A heap holding two events: at address 0 one with status 400, at address 3 one
with status 500, both with the flag `false`. -/
def twoEventHeap : Heap := fun a =>
  if a = 0 then [("detail", JSVal.ref 1)]
  else if a = 1 then [("xhr", JSVal.ref 2), ("shouldSwap", JSVal.bool false)]
  else if a = 2 then [("status", JSVal.num 400)]
  else if a = 3 then [("detail", JSVal.ref 4)]
  else if a = 4 then [("shouldSwap", JSVal.bool false), ("xhr", JSVal.ref 5)]
  else if a = 5 then [("status", JSVal.num 500)]
  else []

/-- The invariant of the reachable states: `window.onload` holds the script's
function; before the load event nothing is registered, nothing was evaluated and
nothing was called; after it the one listener is registered. -/
def Inv (p : Page) : Prop :=
  p.onload = some Fn.onloadFn ∧
    (p.loaded = false → p.listeners = [] ∧ p.closures = 0 ∧ p.calls = 0) ∧
    (p.loaded = true → p.listeners = [("htmx:beforeSwap", Fn.beforeSwapHandler 0)])

/-- The page of the first scenario once its load event has fired. -/
def loadedPage : Page :=
  fireLoad (script (freshPage (scenarioHeap (JSVal.num 400) (JSVal.bool false))))

/-! ## Objects and property access -/

theorem Obj.lookup_set_same (o : Obj) (k : String) (x : JSVal) :
    (o.set k x).lookup k = some x := by
  induction o with
  | nil => simp [Obj.set, List.lookup]
  | cons p rest ih =>
    obtain ⟨k', v⟩ := p
    by_cases hk : k' = k
    · simp [Obj.set, hk, List.lookup]
    · have hb : (k == k') = false := by simpa using fun e => hk e.symm
      simp [Obj.set, hk, List.lookup, hb, ih]

theorem Obj.lookup_set_other (o : Obj) (k k' : String) (x : JSVal) (hne : k' ≠ k) :
    (o.set k x).lookup k' = o.lookup k' := by
  induction o with
  | nil =>
    have hb : (k' == k) = false := by simpa using hne
    simp [Obj.set, List.lookup, hb]
  | cons p rest ih =>
    obtain ⟨k'', v⟩ := p
    by_cases hk : k'' = k
    · subst hk
      have hb : (k' == k'') = false := by simpa using hne
      simp [Obj.set, List.lookup, hb]
    · by_cases hb : (k' == k'') = true
      · simp [Obj.set, hk, List.lookup, hb]
      · simp [Obj.set, hk, List.lookup, hb, ih]

theorem Obj.set_set (o : Obj) (k : String) (x : JSVal) :
    (o.set k x).set k x = o.set k x := by
  induction o with
  | nil => simp [Obj.set]
  | cons p rest ih =>
    obtain ⟨k', v⟩ := p
    by_cases hk : k' = k
    · simp [Obj.set, hk]
    · simp [Obj.set, hk, ih]

theorem Obj.get_set_same (o : Obj) (k : String) (x : JSVal) : (o.set k x).get k = x := by
  simp [Obj.get, Obj.lookup_set_same]

theorem Obj.get_set_other (o : Obj) (k k' : String) (x : JSVal) (hne : k' ≠ k) :
    (o.set k x).get k' = o.get k' := by
  simp [Obj.get, Obj.lookup_set_other o k k' x hne]

theorem setProp_ref (h : Heap) (a : Nat) (k : String) (x : JSVal) :
    setProp h (JSVal.ref a) k x = Except.ok (h.write a k x) := rfl

theorem getProp_write_other (h : Heap) (a : Nat) (k k' : String) (x v : JSVal)
    (hne : k' ≠ k) : getProp (h.write a k x) v k' = getProp h v k' := by
  cases v <;> simp only [getProp]
  rename_i b
  by_cases hb : b = a
  · subst hb
    simp [Heap.write, Obj.get_set_other _ k k' x hne]
  · simp [Heap.write, hb]

theorem getProp_write_same (h : Heap) (a : Nat) (k : String) (x : JSVal) :
    getProp (h.write a k x) (JSVal.ref a) k = Except.ok x := by
  simp [getProp, Heap.write, Obj.get_set_same]

theorem Heap.write_write (h : Heap) (a : Nat) (k : String) (x : JSVal) :
    (h.write a k x).write a k x = h.write a k x := by
  funext b
  by_cases hb : b = a
  · simp [Heap.write, hb, Obj.set_set]
  · simp [Heap.write, hb]

theorem readStatus_write (h : Heap) (a : Nat) (x evt : JSVal) :
    readStatus (h.write a "shouldSwap" x) evt = readStatus h evt := by
  have e1 : ∀ v, getProp (h.write a "shouldSwap" x) v "detail" = getProp h v "detail" :=
    fun v => getProp_write_other h a _ _ x v (by decide)
  have e2 : ∀ v, getProp (h.write a "shouldSwap" x) v "xhr" = getProp h v "xhr" :=
    fun v => getProp_write_other h a _ _ x v (by decide)
  have e3 : ∀ v, getProp (h.write a "shouldSwap" x) v "status" = getProp h v "status" :=
    fun v => getProp_write_other h a _ _ x v (by decide)
  simp only [readStatus, e1, e2, e3]

/-! ## The listener, case by case -/

/-- The listener in terms of the status it reads. -/
theorem handler_eq (h : Heap) (evt : JSVal) :
    handler h evt =
      match readStatus h evt with
      | Except.error e => Except.error e
      | Except.ok st =>
        if st = JSVal.num 400 then
          match getProp h evt "detail" with
          | Except.ok target => setProp h target "shouldSwap" (JSVal.bool true)
          | Except.error e => Except.error e
        else Except.ok h := by
  simp only [handler, readStatus, strictEq, bind, Except.bind, pure, Except.pure]
  cases hd : getProp h evt "detail" with
  | error e => simp
  | ok detail =>
    dsimp only
    cases hx : getProp h detail "xhr" with
    | error e => simp
    | ok xhr =>
      dsimp only
      cases hs : getProp h xhr "status" with
      | error e => simp
      | ok st =>
        by_cases h400 : st = JSVal.num 400 <;> simp [h400]

/-- A status that can be read was read off an object. -/
theorem detail_ref_of_status (h : Heap) (evt st : JSVal)
    (hst : readStatus h evt = Except.ok st) :
    ∃ a, getProp h evt "detail" = Except.ok (JSVal.ref a) := by
  simp only [readStatus, bind, Except.bind] at hst
  cases hd : getProp h evt "detail" with
  | error e => simp [hd] at hst
  | ok detail =>
    simp only [hd] at hst
    cases detail with
    | ref a => exact ⟨a, rfl⟩
    | undefined => simp [getProp] at hst
    | null => simp [getProp] at hst
    | bool b => simp [getProp] at hst
    | num n => simp [getProp] at hst
    | str s => simp [getProp] at hst

theorem handler_of_400 (h : Heap) (evt : JSVal)
    (hst : readStatus h evt = Except.ok (JSVal.num 400)) :
    ∃ a, getProp h evt "detail" = Except.ok (JSVal.ref a) ∧
      handler h evt = Except.ok (h.write a "shouldSwap" (JSVal.bool true)) := by
  obtain ⟨a, ha⟩ := detail_ref_of_status h evt _ hst
  refine ⟨a, ha, ?_⟩
  rw [handler_eq, hst]
  simp [ha, setProp_ref]

theorem handler_of_ne (h : Heap) (evt st : JSVal)
    (hst : readStatus h evt = Except.ok st) (hne : st ≠ JSVal.num 400) :
    handler h evt = Except.ok h := by
  rw [handler_eq, hst]
  simp [hne]

theorem handler_of_error (h : Heap) (evt : JSVal) (e : JSError)
    (hst : readStatus h evt = Except.error e) :
    handler h evt = Except.error e := by
  rw [handler_eq, hst]

/-- The heap after an invocation: the flag of the detail object written, or the
heap as it was. -/
theorem runHandler_cases (h : Heap) (evt : JSVal) :
    (readStatus h evt = Except.ok (JSVal.num 400) ∧
      ∃ a, getProp h evt "detail" = Except.ok (JSVal.ref a) ∧
        runHandler h evt = h.write a "shouldSwap" (JSVal.bool true)) ∨
    (readStatus h evt ≠ Except.ok (JSVal.num 400) ∧ runHandler h evt = h) := by
  cases hs : readStatus h evt with
  | error e =>
    right
    refine ⟨by simp, ?_⟩
    simp [runHandler, handler_of_error h evt e hs]
  | ok st =>
    by_cases h400 : st = JSVal.num 400
    · subst h400
      left
      obtain ⟨a, ha, hh⟩ := handler_of_400 h evt hs
      exact ⟨rfl, a, ha, by simp [runHandler, hh]⟩
    · right
      refine ⟨by simpa using h400, ?_⟩
      simp [runHandler, handler_of_ne h evt st hs h400]

theorem readFlag_write (h : Heap) (evt : JSVal) (a : Nat) (x : JSVal)
    (ha : getProp h evt "detail" = Except.ok (JSVal.ref a)) :
    readFlag (h.write a "shouldSwap" x) evt = Except.ok x := by
  have e1 : getProp (h.write a "shouldSwap" x) evt "detail" = getProp h evt "detail" :=
    getProp_write_other h a _ _ x evt (by decide)
  simp [readFlag, e1, ha, bind, Except.bind, getProp_write_same]

theorem readFlag_runHandler_of_400 (h : Heap) (evt : JSVal)
    (hst : readStatus h evt = Except.ok (JSVal.num 400)) :
    readFlag (runHandler h evt) evt = Except.ok (JSVal.bool true) := by
  obtain ⟨a, ha, hh⟩ := handler_of_400 h evt hst
  simp only [runHandler, hh]
  exact readFlag_write h evt a _ ha

theorem runHandler_of_ne (h : Heap) (evt : JSVal)
    (hst : readStatus h evt ≠ Except.ok (JSVal.num 400)) : runHandler h evt = h := by
  rcases runHandler_cases h evt with ⟨h400, _⟩ | ⟨_, hr⟩
  · exact absurd h400 hst
  · exact hr

/-! ## The claims about the listener -/

/-- C1: when `evt.detail.xhr.status` is exactly the number 400 the listener returns
normally and `evt.detail.shouldSwap` is `true` afterwards, whatever the heap held
before (so whatever the flag was). -/
theorem status_400_forces_swap (h : Heap) (evt : JSVal)
    (hst : readStatus h evt = Except.ok (JSVal.num 400)) :
    ∃ h', handler h evt = Except.ok h' ∧ readFlag h' evt = Except.ok (JSVal.bool true) := by
  obtain ⟨a, ha, hh⟩ := handler_of_400 h evt hst
  exact ⟨_, hh, readFlag_write h evt a _ ha⟩

/-- Scenario 1 of the spec: status 400 with the flag `false` ends with the flag `true`. -/
theorem status_400_forces_swap_witness :
    readFlag (scenarioHeap (JSVal.num 400) (JSVal.bool false)) (JSVal.ref 0)
        = Except.ok (JSVal.bool false) ∧
      ∃ h', handler (scenarioHeap (JSVal.num 400) (JSVal.bool false)) (JSVal.ref 0)
          = Except.ok h' ∧ readFlag h' (JSVal.ref 0) = Except.ok (JSVal.bool true) :=
  ⟨rfl, status_400_forces_swap (scenarioHeap (JSVal.num 400) (JSVal.bool false)) (JSVal.ref 0) rfl⟩

/-- C2: when `evt.detail.xhr.status` is an integer other than 400 the listener returns
the heap it was given, so `evt.detail.shouldSwap` reads as it did before. -/
theorem other_status_keeps_flag (h : Heap) (evt : JSVal) (n : Int) (hn : n ≠ 400)
    (hst : readStatus h evt = Except.ok (JSVal.num n)) :
    handler h evt = Except.ok h ∧ readFlag (runHandler h evt) evt = readFlag h evt := by
  have hne : JSVal.num n ≠ JSVal.num 400 := by simpa using hn
  have hh := handler_of_ne h evt _ hst hne
  exact ⟨hh, by simp [runHandler, hh]⟩

/-- Scenario 4 of the spec: status 404 with the flag `false` leaves the flag `false`. -/
theorem other_status_keeps_flag_witness :
    readFlag (scenarioHeap (JSVal.num 404) (JSVal.bool false)) (JSVal.ref 0)
        = Except.ok (JSVal.bool false) ∧
      (handler (scenarioHeap (JSVal.num 404) (JSVal.bool false)) (JSVal.ref 0)
          = Except.ok (scenarioHeap (JSVal.num 404) (JSVal.bool false)) ∧
        readFlag (runHandler (scenarioHeap (JSVal.num 404) (JSVal.bool false)) (JSVal.ref 0))
            (JSVal.ref 0)
          = readFlag (scenarioHeap (JSVal.num 404) (JSVal.bool false)) (JSVal.ref 0)) :=
  ⟨rfl, other_status_keeps_flag (scenarioHeap (JSVal.num 404) (JSVal.bool false)) (JSVal.ref 0)
    404 (by decide) rfl⟩

/-- C3, as stated, fails: on an event that carries no detail the listener throws a
`TypeError` and returns no heap. -/
theorem handler_throws_without_detail :
    handler bareEventHeap (JSVal.ref 0) = Except.error JSError.typeError ∧
      ¬ ∃ h', handler bareEventHeap (JSVal.ref 0) = Except.ok h' := by
  have hh : handler bareEventHeap (JSVal.ref 0) = Except.error JSError.typeError := rfl
  refine ⟨hh, ?_⟩
  rintro ⟨h', he⟩
  rw [hh] at he
  cases he

/-- C3, amended: on an event whose `evt.detail.xhr` evaluates to a value that is
neither `undefined` nor `null` the listener returns normally. -/
theorem handler_returns_of_shape (h : Heap) (evt detail xhr : JSVal)
    (hd : getProp h evt "detail" = Except.ok detail)
    (hx : getProp h detail "xhr" = Except.ok xhr)
    (hxu : xhr ≠ JSVal.undefined) (hxn : xhr ≠ JSVal.null) :
    ∃ h', handler h evt = Except.ok h' := by
  have hs : ∃ st, readStatus h evt = Except.ok st := by
    simp only [readStatus, bind, Except.bind, hd, hx]
    cases xhr <;> simp [getProp] at hxu hxn ⊢
  obtain ⟨st, hst⟩ := hs
  by_cases h400 : st = JSVal.num 400
  · subst h400
    obtain ⟨a, _, hh⟩ := handler_of_400 h evt hst
    exact ⟨_, hh⟩
  · exact ⟨h, handler_of_ne h evt st hst h400⟩

/-- An event of the expected shape, whatever its status and flag, is handled
without an exception. -/
theorem handler_returns_of_shape_witness :
    ∃ h', handler (scenarioHeap (JSVal.str "400") JSVal.undefined) (JSVal.ref 0)
      = Except.ok h' :=
  handler_returns_of_shape (scenarioHeap (JSVal.str "400") JSVal.undefined) (JSVal.ref 0)
    (JSVal.ref 1) (JSVal.ref 2) rfl rfl (by decide) (by decide)

/-- The flag after an invocation, from the status and the flag before it. -/
theorem readFlag_runHandler (h : Heap) (evt st prior : JSVal)
    (hst : readStatus h evt = Except.ok st) (hf : readFlag h evt = Except.ok prior) :
    readFlag (runHandler h evt) evt
      = Except.ok (if st = JSVal.num 400 then JSVal.bool true else prior) := by
  by_cases h400 : st = JSVal.num 400
  · subst h400
    simpa using readFlag_runHandler_of_400 h evt hst
  · have hne : readStatus h evt ≠ Except.ok (JSVal.num 400) := by
      rw [hst]
      simpa using h400
    simp [runHandler_of_ne h evt hne, hf, h400]

/-- C5: the flag after an event is handled is determined by that event's status and
its flag before: two events that agree on both end with the same flag, namely
`true` for status 400 and the flag before otherwise, whatever heaps they live in
and whatever events were handled before them. -/
theorem flag_depends_on_status_and_prior (h₁ h₂ : Heap) (past₁ past₂ : List JSVal)
    (e₁ e₂ st prior : JSVal)
    (hs₁ : readStatus (handleAll h₁ past₁) e₁ = Except.ok st)
    (hs₂ : readStatus (handleAll h₂ past₂) e₂ = Except.ok st)
    (hf₁ : readFlag (handleAll h₁ past₁) e₁ = Except.ok prior)
    (hf₂ : readFlag (handleAll h₂ past₂) e₂ = Except.ok prior) :
    readFlag (runHandler (handleAll h₁ past₁) e₁) e₁
        = readFlag (runHandler (handleAll h₂ past₂) e₂) e₂ ∧
      readFlag (runHandler (handleAll h₁ past₁) e₁) e₁
        = Except.ok (if st = JSVal.num 400 then JSVal.bool true else prior) := by
  have r₁ := readFlag_runHandler _ e₁ st prior hs₁ hf₁
  have r₂ := readFlag_runHandler _ e₂ st prior hs₂ hf₂
  exact ⟨r₁.trans r₂.symm, r₁⟩

/-- The status-500 event ends with the same flag after no history in one heap and
after a status-400 event was handled in another. -/
theorem flag_depends_on_status_and_prior_witness :
    readFlag (runHandler (handleAll (scenarioHeap (JSVal.num 500) (JSVal.bool false)) [])
        (JSVal.ref 0)) (JSVal.ref 0)
      = readFlag (runHandler (handleAll twoEventHeap [JSVal.ref 0]) (JSVal.ref 3)) (JSVal.ref 3) ∧
    readFlag (runHandler (handleAll (scenarioHeap (JSVal.num 500) (JSVal.bool false)) [])
        (JSVal.ref 0)) (JSVal.ref 0)
      = Except.ok (if JSVal.num 500 = JSVal.num 400 then JSVal.bool true else JSVal.bool false) :=
  flag_depends_on_status_and_prior (scenarioHeap (JSVal.num 500) (JSVal.bool false)) twoEventHeap
    [] [JSVal.ref 0] (JSVal.ref 0) (JSVal.ref 3) (JSVal.num 500) (JSVal.bool false)
    rfl rfl rfl rfl

/-- C6: an invocation of the listener, whether it returns or throws, leaves
`evt.detail.xhr.status` as it was, leaves every object other than the one
`evt.detail` denotes as it was, and leaves every property other than `shouldSwap`
of every object as it was. -/
theorem handler_writes_only_flag (h : Heap) (evt : JSVal) :
    readStatus (runHandler h evt) evt = readStatus h evt ∧
      (∀ a, getProp h evt "detail" ≠ Except.ok (JSVal.ref a) → runHandler h evt a = h a) ∧
      (∀ a k, k ≠ "shouldSwap" → (runHandler h evt a).lookup k = (h a).lookup k) := by
  rcases runHandler_cases h evt with ⟨_, a, ha, hr⟩ | ⟨_, hr⟩
  · rw [hr]
    refine ⟨readStatus_write h a _ evt, ?_, ?_⟩
    · intro b hb
      have hba : b ≠ a := by
        rintro rfl
        exact hb ha
      simp [Heap.write, hba]
    · intro b k hk
      by_cases hba : b = a
      · subst hba
        simp [Heap.write, Obj.lookup_set_other _ _ _ _ hk]
      · simp [Heap.write, hba]
  · rw [hr]
    exact ⟨rfl, fun _ _ => rfl, fun _ _ _ => rfl⟩

/-- C7: invoking the listener a second time on the same event changes nothing: the
heap after two invocations is the heap after one, and a listener that returned
returns the same heap again. -/
theorem handler_idempotent (h : Heap) (evt : JSVal) :
    runHandler (runHandler h evt) evt = runHandler h evt ∧
      ∀ h', handler h evt = Except.ok h' → handler h' evt = Except.ok h' := by
  rcases runHandler_cases h evt with ⟨h400, a, ha, hr⟩ | ⟨hne, hr⟩
  · have hst : readStatus (h.write a "shouldSwap" (JSVal.bool true)) evt
        = Except.ok (JSVal.num 400) := by
      rw [readStatus_write, h400]
    have hd : getProp (h.write a "shouldSwap" (JSVal.bool true)) evt "detail"
        = Except.ok (JSVal.ref a) := by
      rw [getProp_write_other h a _ _ _ evt (by decide), ha]
    obtain ⟨b, hb, hh⟩ := handler_of_400 _ evt hst
    have hba : b = a := by
      rw [hd] at hb
      simpa using hb.symm
    subst hba
    rw [Heap.write_write] at hh
    obtain ⟨c, hc, hh₀⟩ := handler_of_400 h evt h400
    have hcb : c = b := by
      rw [ha] at hc
      simpa using hc.symm
    subst hcb
    refine ⟨?_, ?_⟩
    · rw [hr]
      simp [runHandler, hh]
    · intro h' he
      rw [hh₀] at he
      cases he
      exact hh
  · refine ⟨by rw [hr, hr], ?_⟩
    intro h' he
    have : h' = h := by
      simp [runHandler, he] at hr
      exact hr
    subst this
    exact he

/-- C8: the test is `===` against the number 400: when `evt.detail.xhr.status` is any
value other than the number 400, the string `"400"` among them, the listener
returns the heap it was given and `evt.detail.shouldSwap` keeps its value. -/
theorem status_test_is_strict (h : Heap) (evt st : JSVal) (hne : st ≠ JSVal.num 400)
    (hst : readStatus h evt = Except.ok st) :
    strictEq st (JSVal.num 400) = false ∧ strictEq (JSVal.str "400") (JSVal.num 400) = false ∧
      handler h evt = Except.ok h ∧ readFlag (runHandler h evt) evt = readFlag h evt := by
  have hh := handler_of_ne h evt st hst hne
  refine ⟨by simp [strictEq, hne], by decide, hh, by simp [runHandler, hh]⟩

/-- The string `"400"` as status, flag `false`: nothing is written. -/
theorem status_test_is_strict_witness :
    strictEq (JSVal.str "400") (JSVal.num 400) = false ∧
      strictEq (JSVal.str "400") (JSVal.num 400) = false ∧
      handler (scenarioHeap (JSVal.str "400") (JSVal.bool false)) (JSVal.ref 0)
        = Except.ok (scenarioHeap (JSVal.str "400") (JSVal.bool false)) ∧
      readFlag (runHandler (scenarioHeap (JSVal.str "400") (JSVal.bool false)) (JSVal.ref 0))
          (JSVal.ref 0)
        = readFlag (scenarioHeap (JSVal.str "400") (JSVal.bool false)) (JSVal.ref 0) :=
  status_test_is_strict (scenarioHeap (JSVal.str "400") (JSVal.bool false)) (JSVal.ref 0)
    (JSVal.str "400") (by decide) rfl

/-- C9: the listener forces a swap and never vetoes one: with the flag `b` before and
the status `st`, the flag afterwards is `b || (st === 400)`; in particular a flag
that was `true` is `true` afterwards. -/
theorem handler_never_vetoes (h : Heap) (evt st : JSVal) (b : Bool)
    (hst : readStatus h evt = Except.ok st) (hf : readFlag h evt = Except.ok (JSVal.bool b)) :
    readFlag (runHandler h evt) evt
        = Except.ok (JSVal.bool (b || strictEq st (JSVal.num 400))) ∧
      (b = true → readFlag (runHandler h evt) evt = Except.ok (JSVal.bool true)) := by
  have r := readFlag_runHandler h evt st _ hst hf
  have e : readFlag (runHandler h evt) evt
      = Except.ok (JSVal.bool (b || strictEq st (JSVal.num 400))) := by
    rw [r]
    by_cases h400 : st = JSVal.num 400 <;> simp [strictEq, h400]
  refine ⟨e, ?_⟩
  intro hb
  rw [e, hb]
  simp

/-- Scenario 3 of the spec: status 200 with the flag `true` keeps the flag `true`. -/
theorem handler_never_vetoes_witness :
    readFlag (runHandler (scenarioHeap (JSVal.num 200) (JSVal.bool true)) (JSVal.ref 0))
        (JSVal.ref 0)
      = Except.ok (JSVal.bool (true || strictEq (JSVal.num 200) (JSVal.num 400))) ∧
    (true = true →
      readFlag (runHandler (scenarioHeap (JSVal.num 200) (JSVal.bool true)) (JSVal.ref 0))
        (JSVal.ref 0) = Except.ok (JSVal.bool true)) :=
  handler_never_vetoes (scenarioHeap (JSVal.num 200) (JSVal.bool true)) (JSVal.ref 0)
    (JSVal.num 200) true rfl rfl

/-! ## The page -/

theorem dispatchEvent_unregistered (p : Page) (type : String) (evt : JSVal)
    (hl : p.listeners = []) : dispatchEvent p type evt = p := by
  simp [dispatchEvent, hl]

theorem dispatchEvent_registered (p : Page) (evt : JSVal)
    (hl : p.listeners = [("htmx:beforeSwap", Fn.beforeSwapHandler 0)]) :
    dispatchEvent p "htmx:beforeSwap" evt
      = { p with heap := runHandler p.heap evt, calls := p.calls + 1 } := by
  simp [dispatchEvent, hl, callFn]

theorem fireLoad_of_inv (p : Page) (hi : Inv p) (hl : p.loaded = false) :
    fireLoad p = { p with
      loaded := true
      listeners := [("htmx:beforeSwap", Fn.beforeSwapHandler 0)]
      closures := 1 } := by
  obtain ⟨ho, hpre, _⟩ := hi
  obtain ⟨hls, hc, _⟩ := hpre hl
  simp [fireLoad, ho, callFn, onloadBody, addEventListener, hls, hc]

theorem inv_step {p q : Page} (hi : Inv p) (hs : Step p q) : Inv q := by
  cases hs with
  | load hl =>
    rw [fireLoad_of_inv p hi hl]
    exact ⟨hi.1, by simp, by simp⟩
  | dispatch h evt =>
    cases hl : p.loaded with
    | false =>
      obtain ⟨hls, hc, hk⟩ := hi.2.1 hl
      rw [dispatchEvent_unregistered _ _ _ (by simpa using hls)]
      exact ⟨hi.1, by simp [hl, hls, hc, hk], by simp [hl]⟩
    | true =>
      have hls := hi.2.2 hl
      rw [dispatchEvent_registered _ _ (by simpa using hls)]
      exact ⟨hi.1, by simp [hl], by simp [hls]⟩

theorem inv_of_reachable {p : Page} (hp : Reachable p) : Inv p := by
  induction hp with
  | init h => exact ⟨rfl, by simp [script, freshPage], by simp [script, freshPage]⟩
  | step _ hs ih => exact inv_step ih hs

/-- C4: in every state the page reaches, the listener is registered at most once;
before the load event it is not registered, has not been called, and an event
dispatched then calls nothing; once the load event has fired it is registered
exactly once, every further step keeps the page loaded and the registration as
it is, and each event dispatched calls the listener exactly once. -/
theorem registration_lifecycle (p : Page) (hp : Reachable p) :
    registrations p ≤ 1 ∧
      (p.loaded = false → p.listeners = [] ∧ p.calls = 0 ∧
        ∀ h evt, (dispatchEvent { p with heap := h } "htmx:beforeSwap" evt).calls = 0 ∧
          (dispatchEvent { p with heap := h } "htmx:beforeSwap" evt).heap = h) ∧
      (p.loaded = true → registrations p = 1 ∧
        (∀ q, Step p q → q.loaded = true ∧ q.listeners = p.listeners) ∧
        ∀ h evt,
          (dispatchEvent { p with heap := h } "htmx:beforeSwap" evt).calls = p.calls + 1 ∧
          (dispatchEvent { p with heap := h } "htmx:beforeSwap" evt).heap = runHandler h evt) := by
  have hi := inv_of_reachable hp
  cases hl : p.loaded with
  | false =>
    obtain ⟨hls, _, hk⟩ := hi.2.1 hl
    refine ⟨by simp [registrations, hls], ?_, by simp⟩
    intro _
    refine ⟨hls, hk, ?_⟩
    intro h evt
    rw [dispatchEvent_unregistered _ _ _ (by simpa using hls)]
    exact ⟨hk, rfl⟩
  | true =>
    have hls := hi.2.2 hl
    refine ⟨by simp [registrations, hls], by simp, ?_⟩
    intro _
    refine ⟨by simp [registrations, hls], ?_, ?_⟩
    · intro q hq
      cases hq with
      | load hl' => simp [hl] at hl'
      | dispatch h evt =>
        rw [dispatchEvent_registered _ _ (by simpa using hls)]
        exact ⟨hl, hls ▸ rfl⟩
    · intro h evt
      rw [dispatchEvent_registered _ _ (by simpa using hls)]
      exact ⟨rfl, rfl⟩

/-- The page of the first scenario after its load event: reachable, loaded, with
one registration, and the event dispatched on it calls the listener once. -/
theorem registration_lifecycle_witness :
    Reachable loadedPage ∧ loadedPage.loaded = true ∧ registrations loadedPage = 1 ∧
      (dispatchEvent { loadedPage with heap := loadedPage.heap } "htmx:beforeSwap"
        (JSVal.ref 0)).calls = loadedPage.calls + 1 :=
  have hr : Reachable loadedPage := Reachable.step (Reachable.init _) (Step.load _ rfl)
  have hc := (registration_lifecycle loadedPage hr).2.2 rfl
  ⟨hr, rfl, hc.1, (hc.2.2 loadedPage.heap (JSVal.ref 0)).1⟩

end Tessera
